import Mathlib

set_option linter.unusedVariables false

namespace Signify

/-! Shallow embedding of the response-streaming and aggregation core of the
SigNify study client. The data model follows types.ts; the completion client
follows the streamResponse / getTranslatorResponse / getTranslation definitions
in geminiService.ts (two definitions, separated in the file), in
services/geminiService.ts and in unnamed/part_000; the stream aggregator follows
the fold performed inside handleSubmit of App-1.tsx and handleSend of
unnamed/part_001 and unnamed/part_002. External platform facilities are modelled
at the boundary: the URL host-name accessor is an abstract function argument,
JSON.parse is an abstract parse-function argument, and String.prototype.trim is
modelled over the ASCII whitespace characters. -/

/-- A cited web source: uri is the identity key, title the display label (types.ts Source). -/
structure Source where
  uri : String
  title : String
deriving DecidableEq, Repr

/-- One streamed increment produced by the completion client: a text delta plus
the citations extracted from the grounding metadata of the provider chunk. -/
structure Fragment where
  text : String
  sources : List Source
deriving DecidableEq, Repr

/-- A chat message held in component state (types.ts Message). The optional TS
field sources is initialized to the empty array on every bot message that the
cited folds update, so it is embedded as a plain list. -/
structure Message where
  id : String
  sender : String
  text : String
  sources : List Source
deriving DecidableEq, Repr

/-- Embedding of the JavaScript Array.prototype.filter callback form used by the
de-duplication one-liner: elements are visited left to right together with their
index in the full array. -/
def filterWithIndex (f : Source → Nat → Bool) : List Source → Nat → List Source
  | [], _ => []
  | v :: rest, i =>
    if f v i then v :: filterWithIndex f rest (i + 1) else filterWithIndex f rest (i + 1)

/-- Embedding of the citation de-duplication of App-1.tsx line 95 and
unnamed/part_001 line 90: a.filter((v, i, a) => a.findIndex(t => t.uri === v.uri) === i).
An element is kept exactly when its index equals the index of the first element
of the whole array carrying the same uri. -/
def dedupByUri (a : List Source) : List Source :=
  filterWithIndex (fun v i => a.findIdx (fun t => t.uri == v.uri) == i) a 0

/-- First-occurrence selection in direct recursive form; proved equal to
dedupByUri below and used to reason about it. -/
def keepFirstByUri : List Source → List Source
  | [] => []
  | v :: rest => v :: keepFirstByUri (rest.filter (fun t => !(t.uri == v.uri)))
termination_by l => l.length
decreasing_by
  simp only [List.length_cons]
  exact Nat.lt_succ_of_le (List.length_filter_le _ _)

/-- Aggregation step of App-1.tsx handleSubmit lines 90-98 and unnamed/part_001
line 90: append the text delta, concatenate the citations and keep only the
first occurrence of every uri. unnamed/part_001 line 441 additionally pipes the
concatenation through Array.from(new Set(...)) before the same uri filter; a JS
Set over pairwise-distinct object references changes nothing, so that fold is
the same function. -/
def foldMessage (m : Message) (chunk : Fragment) : Message :=
  { m with
    text := m.text ++ chunk.text
    sources := dedupByUri (m.sources ++ chunk.sources) }

/-- Aggregation step of unnamed/part_002 handleSend line 223: the concatenated
citation array is only passed through Array.from(new Set(...)). A JS Set
de-duplicates by reference identity, and the accumulated and chunk citation
objects are pairwise distinct references, so the merge is plain concatenation
with no per-uri filtering. -/
def foldMessagePart002 (m : Message) (chunk : Fragment) : Message :=
  { m with
    text := m.text ++ chunk.text
    sources := m.sources ++ chunk.sources }

/-- The freshly inserted bot message the stream is folded into (App-1.tsx line 82,
unnamed/part_002 line 219): empty text, no sources. -/
def botMessage (id : String) : Message :=
  { id := id, sender := "bot", text := "", sources := [] }

/-- Concatenation, in order, of the text deltas of a fragment sequence; the
specification side of the accumulated-text property. -/
def concatTexts : List Fragment → String
  | [] => ""
  | f :: r => f.text ++ concatTexts r

/-- A fragment with empty text delta and no citations. -/
def emptyFragment : Fragment := { text := "", sources := [] }

/-! Provider chunk shape, following the navigation performed by the streaming
code: chunk.text, chunk.candidates?.[0]?.groundingMetadata?.groundingChunks,
and for every grounding chunk c the fields c.web, c.web.uri, c.web.title. -/

/-- Web info carried by a grounding chunk; both fields may be absent. -/
structure Web where
  uri : Option String
  title : Option String
deriving DecidableEq, Repr

structure GroundingChunk where
  web : Option Web
deriving DecidableEq, Repr

structure GroundingMetadata where
  groundingChunks : Option (List GroundingChunk)
deriving DecidableEq, Repr

structure Candidate where
  groundingMetadata : Option GroundingMetadata
deriving DecidableEq, Repr

/-- One chunk delivered by the provider stream: the text delta may be absent and
the candidate list may be absent. -/
structure ProviderChunk where
  text : Option String
  candidates : Option (List Candidate)
deriving DecidableEq, Repr

/-- JavaScript string-or-default (x || d): undefined and the empty string are
falsy, any other string is returned unchanged. -/
def jsOrString : Option String → String → String
  | none, d => d
  | some s, d => if s = "" then d else s

/-- The uri reached by c.web.uri, with the empty string standing for an absent or
falsy value; the filter condition c.web && c.web.uri is exactly webUriOf c being
nonempty. -/
def webUriOf (c : GroundingChunk) : String :=
  match c.web with
  | none => ""
  | some w =>
    match w.uri with
    | none => ""
    | some u => u

/-- The title reached by c.web.title, when present. -/
def webTitleOf (c : GroundingChunk) : Option String :=
  c.web.bind Web.title

/-- Grounding-citation extraction shared by geminiService.ts lines 29-36 and
services/geminiService.ts lines 27-34: keep chunks whose web.uri is truthy, take
that uri, and default the title to the host name of the uri. The hostname
argument stands for the external URL API (new URL(u).hostname). -/
def extractSources (hostname : String → String) (gcs : List GroundingChunk) : List Source :=
  (gcs.filter (fun c => !(webUriOf c == ""))).map
    (fun c => { uri := webUriOf c, title := jsOrString (webTitleOf c) (hostname (webUriOf c)) })

/-- Same extraction in unnamed/part_000 lines 33-35, with the generic
placeholder title instead of the host name. -/
def extractSourcesP000 (gcs : List GroundingChunk) : List Source :=
  (gcs.filter (fun c => !(webUriOf c == ""))).map
    (fun c => { uri := webUriOf c, title := jsOrString (webTitleOf c) "Source" })

/-- Navigation chunk.candidates?.[0]?.groundingMetadata?.groundingChunks. -/
def chunkGroundingChunks (c : ProviderChunk) : Option (List GroundingChunk) :=
  ((c.candidates.bind List.head?).bind Candidate.groundingMetadata).bind
    GroundingMetadata.groundingChunks

/-- Per-chunk fragment construction of geminiService.ts lines 26-37 (first
streamResponse definition): the text delta defaults to the empty string, the
sources come from the grounding metadata when present. An empty groundingChunks
array is truthy in JS, so presence alone selects the extraction branch. -/
def chunkToFragment (hostname : String → String) (c : ProviderChunk) : Fragment :=
  { text := jsOrString c.text ""
    sources :=
      match chunkGroundingChunks c with
      | some gcs => extractSources hostname gcs
      | none => [] }

/-- Per-chunk fragment construction of unnamed/part_000 lines 29-37: text delta
defaults to the empty string, titles default to the generic placeholder. -/
def chunkToFragmentP000 (c : ProviderChunk) : Fragment :=
  { text := jsOrString c.text ""
    sources :=
      match chunkGroundingChunks c with
      | some gcs => extractSourcesP000 gcs
      | none => [] }

/-- A fragment as yielded by services/geminiService.ts, where the text delta is
passed through unchanged and may therefore be absent. -/
structure FragmentOpt where
  text : Option String
  sources : List Source
deriving DecidableEq, Repr

/-- Per-chunk fragment construction of services/geminiService.ts lines 23-35:
const text = chunk.text with no default, sources as in the main variant. -/
def chunkToFragmentServices (hostname : String → String) (c : ProviderChunk) : FragmentOpt :=
  { text := c.text
    sources :=
      match chunkGroundingChunks c with
      | some gcs => extractSources hostname gcs
      | none => [] }

/-- A JavaScript exception value: either an Error instance carrying its message,
or any other thrown value together with its String(e) rendering. -/
inductive JsError where
  | error (message : String)
  | other (asString : String)
deriving DecidableEq, Repr

/-- Observable behavior of one generateContentStream call: the chunks delivered
before the stream either ends normally (error = none) or raises (error = some e).
A rejection of the initial await is the case delivered = []. -/
structure ProviderStream where
  delivered : List ProviderChunk
  error : Option JsError
deriving Repr

/-- Detail text of geminiService.ts line 41: e instanceof Error ? e.message :
a fixed connection message. -/
def detailedErrorV1 : JsError → String
  | .error m => m
  | .other _ => "Connection failed."

/-- Terminal error fragment of geminiService.ts line 42. -/
def errorFragmentV1 (e : JsError) : Fragment :=
  { text := "Error: " ++ detailedErrorV1 e ++ ". Please check your connection.", sources := [] }

/-- Embedding of the first streamResponse definition of geminiService.ts, lines
16-44: every delivered chunk is mapped to a fragment; a provider error is caught
and converted into one final error fragment with an empty citation list, after
which the stream ends. The codomain is a total list of fragments: nothing is
raised to the caller. -/
def streamResponseV1 (hostname : String → String) (ps : ProviderStream) : List Fragment :=
  ps.delivered.map (chunkToFragment hostname) ++
    (match ps.error with
     | none => []
     | some e => [errorFragmentV1 e])

/-- Error message of services/geminiService.ts line 39:
e instanceof Error ? e.message : String(e). -/
def jsErrorMessage : JsError → String
  | .error m => m
  | .other s => s

/-- Terminal error fragment of services/geminiService.ts line 40. -/
def errorFragmentServices (e : JsError) : FragmentOpt :=
  { text := some ("An error occurred: " ++ jsErrorMessage e), sources := [] }

/-- Embedding of streamResponse of services/geminiService.ts lines 14-42. -/
def streamResponseServices (hostname : String → String) (ps : ProviderStream) :
    List FragmentOpt :=
  ps.delivered.map (chunkToFragmentServices hostname) ++
    (match ps.error with
     | none => []
     | some e => [errorFragmentServices e])

/-- Detail text of unnamed/part_000 line 40: e.message || a fixed fallback; the
message property of a non-Error value is modelled as absent. -/
def detailP000 (e : JsError) : String :=
  jsOrString
    (match e with
     | .error m => some m
     | .other _ => none)
    "Failed to connect to AI"

/-- Terminal error fragment of unnamed/part_000 line 40. -/
def errorFragmentP000 (e : JsError) : Fragment :=
  { text := "Error: " ++ detailP000 e, sources := [] }

/-- Embedding of streamResponse of unnamed/part_000 lines 12-42. -/
def streamResponseP000 (ps : ProviderStream) : List Fragment :=
  ps.delivered.map chunkToFragmentP000 ++
    (match ps.error with
     | none => []
     | some e => [errorFragmentP000 e])

/-! Client-handle state and key validation. -/

/-- A provider client handle, identified by its construction index (the number of
new GoogleGenAI constructions performed before it). -/
abbrev Handle := Nat

/-- Module-level client state of geminiService.ts (aiInstance, lines 7 and 159)
and services/geminiService.ts (ai, line 5): the cached handle when one has been
constructed, plus the number of constructions performed so far. -/
structure ClientState where
  aiInstance : Option Handle
  constructed : Nat
deriving DecidableEq, Repr

/-- JavaScript falsiness of the environment key value: absent or the empty string. -/
def jsFalsyStr : Option String → Bool
  | none => true
  | some s => s == ""

/-- Embedding of getAi of geminiService.ts lines 9-14 and
services/geminiService.ts lines 7-12: construct the client on first use, cache
it in the module-level variable, return the cached handle on every later call.
No key validation is performed; the possibly-undefined key is passed to the
constructor under a type cast, and the external constructor is modelled as
recording the configuration without validating it. -/
def getAiCached (s : ClientState) : Handle × ClientState :=
  match s.aiInstance with
  | some h => (h, s)
  | none =>
    (s.constructed, { aiInstance := some s.constructed, constructed := s.constructed + 1 })

/-- Embedding of getAi of the second definition in geminiService.ts, lines
161-171: a falsy key raises a configuration error before the cached handle is
touched; otherwise the behavior is the cached construction. -/
def getAiV2 (apiKey : Option String) (s : ClientState) : Except String (Handle × ClientState) :=
  if jsFalsyStr apiKey then
    .error "API Key is missing. Ensure it is set in your environment variables."
  else
    .ok (getAiCached s)

/-- Embedding of getAi of unnamed/part_000 lines 6-10: a falsy key raises, and
otherwise a fresh client is constructed on every call; nothing is cached. The
argument is the number of constructions performed so far. -/
def getAiP000 (apiKey : Option String) (constructed : Nat) : Except String (Handle × Nat) :=
  if jsFalsyStr apiKey then
    .error "API Key missing"
  else
    .ok (constructed, constructed + 1)

/-- Result of a call as observed by the caller: either an exception propagated
out, carrying its message, or a returned value. -/
inductive CallResult (α : Type) where
  | raised (msg : String)
  | ok (a : α)
deriving DecidableEq, Repr

/-- A call outcome together with the number of provider requests it issued. -/
structure Traced (α : Type) where
  providerCalls : Nat
  result : CallResult α
deriving DecidableEq, Repr

/-- Terminal error fragment of the second streamResponse definition of
geminiService.ts, line 198 (fixed message, the caught value is not inspected). -/
def errorFragmentV2 : Fragment :=
  { text := "Error: Could not connect to the AI tutor. Please check your internet connection or API key status."
    sources := [] }

/-- Embedding of the second streamResponse definition of geminiService.ts,
lines 173-200, minus its getAi call (split out below). -/
def streamResponseV2 (hostname : String → String) (ps : ProviderStream) : List Fragment :=
  ps.delivered.map (chunkToFragment hostname) ++
    (match ps.error with
     | none => []
     | some _ => [errorFragmentV2])

/-- Streaming entry of the second geminiService.ts variant: getAi (lines
161-171) runs before the try block of streamResponse (lines 173-179), so a falsy
key raises to the caller before the provider stream is opened. providerCalls
counts generateContentStream invocations. -/
def streamCompletionV2 (apiKey : Option String) (s : ClientState)
    (hostname : String → String) (ps : ProviderStream) :
    Traced (List Fragment) × ClientState :=
  match getAiV2 apiKey s with
  | .error m => (⟨0, .raised m⟩, s)
  | .ok (_, s') => (⟨1, .ok (streamResponseV2 hostname ps)⟩, s')

/-- Streaming entry of services/geminiService.ts: getAi (lines 7-12) performs no
key check, so the provider stream is opened even when the key is absent. -/
def streamCompletionServices (apiKey : Option String) (s : ClientState)
    (hostname : String → String) (ps : ProviderStream) :
    Traced (List FragmentOpt) × ClientState :=
  (⟨1, .ok (streamResponseServices hostname ps)⟩, (getAiCached s).2)

/-- Streaming entry of unnamed/part_000: getAi (lines 6-10) runs at line 17
before the try block, so a falsy key raises before any provider call. -/
def streamCompletionP000 (apiKey : Option String) (ps : ProviderStream) :
    Traced (List Fragment) :=
  if jsFalsyStr apiKey then ⟨0, .raised "API Key missing"⟩
  else ⟨1, .ok (streamResponseP000 ps)⟩

/-! Structured translation. -/

/-- One word mapping of the structured translation payload (types.ts). -/
structure WordPair where
  original : String
  translation : String
deriving DecidableEq, Repr

/-- Structured translation result (types.ts TranslatorResponse); explanation is
optional in the second types.ts variant and the schema of geminiService.ts. -/
structure TranslatorResponse where
  mainTranslation : String
  wordByWord : List WordPair
  explanation : Option String
deriving DecidableEq, Repr

/-- Whitespace characters recognized by JavaScript String.prototype.trim,
restricted to the ASCII range. -/
def isJsWhitespace (c : Char) : Bool :=
  c == ' ' || c == '\t' || c == '\n' || c == '\r' || c == '\x0b' || c == '\x0c'

/-- Model of the external JavaScript String.prototype.trim: drop leading and
trailing whitespace characters. -/
def jsTrim (s : String) : String :=
  ⟨((s.data.dropWhile isJsWhitespace).reverse.dropWhile isJsWhitespace).reverse⟩

/-- Embedding of getTranslatorResponse of geminiService.ts lines 109-153 (first
definition). The provider call outcome is the resp argument: either a rejection
carrying a JS exception or the response text. parse stands for the external
JSON.parse checked against the response schema; a parse failure is a thrown
SyntaxError carrying the parse detail. Both failure paths land in the catch
block, which throws a fixed generic message. The provider is called exactly
once; providerCalls records it. -/
def getTranslatorResponseV1 (parse : String → Except String TranslatorResponse)
    (resp : Except JsError String) : Traced TranslatorResponse :=
  match resp with
  | .error _ => ⟨1, .raised "Failed to process translation."⟩
  | .ok t =>
    match parse (jsTrim t) with
    | .ok r => ⟨1, .ok r⟩
    | .error _ => ⟨1, .raised "Failed to process translation."⟩

/-- Embedding of getTranslatorResponse of the second geminiService.ts
definition, lines 263-310, minus its getAi call (split out in the traced entry
below): the catch block throws a fixed message as well. -/
def getTranslatorResponseV2core (parse : String → Except String TranslatorResponse)
    (resp : Except JsError String) : Traced TranslatorResponse :=
  match resp with
  | .error _ => ⟨1, .raised "Translator failed to parse text."⟩
  | .ok t =>
    match parse (jsTrim t) with
    | .ok r => ⟨1, .ok r⟩
    | .error _ => ⟨1, .raised "Translator failed to parse text."⟩

/-- Structured entry of the second geminiService.ts variant: getAi runs first
(line 264), so a falsy key raises the configuration error before any provider
call. -/
def getTranslatorResponseV2 (apiKey : Option String) (s : ClientState)
    (parse : String → Except String TranslatorResponse) (resp : Except JsError String) :
    Traced TranslatorResponse × ClientState :=
  match getAiV2 apiKey s with
  | .error m => (⟨0, .raised m⟩, s)
  | .ok (_, s') => (getTranslatorResponseV2core parse resp, s')

/-- Embedding of getTranslatorResponse of services/geminiService.ts lines
104-154: the catch block rethrows with the message of the caught exception
appended to a fixed prefix, so a JSON.parse failure detail is preserved. -/
def getTranslatorResponseServices (parse : String → Except String TranslatorResponse)
    (resp : Except JsError String) : Traced TranslatorResponse :=
  match resp with
  | .error e => ⟨1, .raised ("Failed to get translation: " ++ jsErrorMessage e)⟩
  | .ok t =>
    match parse (jsTrim t) with
    | .ok r => ⟨1, .ok r⟩
    | .error d => ⟨1, .raised ("Failed to get translation: " ++ d)⟩

/-- Embedding of getTranslation of unnamed/part_000 lines 62-95: getAi validates
the key first; there is no try block, so a provider rejection or a JSON.parse
failure propagates as thrown. -/
def getTranslationP000 (apiKey : Option String)
    (parse : String → Except String TranslatorResponse) (resp : Except JsError String) :
    Traced TranslatorResponse :=
  if jsFalsyStr apiKey then ⟨0, .raised "API Key missing"⟩
  else
    match resp with
    | .error e => ⟨1, .raised (jsErrorMessage e)⟩
    | .ok t =>
      match parse (jsTrim t) with
      | .ok r => ⟨1, .ok r⟩
      | .error d => ⟨1, .raised d⟩

/-! Lemmas about the first-occurrence de-duplication. The literal embedding
dedupByUri (filter with index over findIdx into the whole array) is first proved
equal to the recursive selection keepFirstByUri, and the structural properties
are then established on the recursive form. -/

theorem beqStrComm (a b : String) : (a == b) = (b == a) := by
  cases h : a == b <;> cases h2 : b == a <;> simp_all [beq_iff_eq]

/-- Freshness of the uri of t with respect to a prefix of already visited sources. -/
def uriFresh (pre : List Source) (t : Source) : Bool :=
  !(pre.any (fun s => s.uri == t.uri))

theorem uriFreshAppendSingleton (pre : List Source) (v t : Source) :
    uriFresh (pre ++ [v]) t = (uriFresh pre t && !(t.uri == v.uri)) := by
  simp only [uriFresh, List.any_append, List.any_cons, List.any_nil, Bool.or_false,
    Bool.not_or]
  rw [beqStrComm v.uri t.uri]

theorem findIdxAppendSelf (v : Source) (pre rest : List Source)
    (h : ∀ s ∈ pre, (s.uri == v.uri) = false) :
    (pre ++ v :: rest).findIdx (fun t => t.uri == v.uri) = pre.length := by
  induction pre with
  | nil => simp [List.findIdx_cons]
  | cons a t ih =>
    have ha := h a (by simp)
    simp only [List.cons_append, List.findIdx_cons, ha, cond_false, List.length_cons]
    rw [ih (fun s hs => h s (by simp [hs]))]

theorem findIdxAppendLt (v : Source) (pre tail : List Source)
    (h : pre.any (fun s => s.uri == v.uri) = true) :
    (pre ++ tail).findIdx (fun t => t.uri == v.uri) < pre.length := by
  induction pre with
  | nil => simp at h
  | cons a t ih =>
    simp only [List.any_cons, Bool.or_eq_true] at h
    simp only [List.cons_append, List.findIdx_cons, List.length_cons]
    cases ha : (a.uri == v.uri) with
    | true => simp
    | false =>
      have ht : t.any (fun s => s.uri == v.uri) = true := by
        rcases h with h | h
        · rw [ha] at h; exact absurd h (by simp)
        · exact h
      simpa using Nat.succ_lt_succ (ih ht)

theorem filterWithIndexEqKeepFirst (a : List Source) : ∀ pre : List Source,
    filterWithIndex (fun v i => (pre ++ a).findIdx (fun t => t.uri == v.uri) == i)
        a pre.length
      = keepFirstByUri (a.filter (uriFresh pre)) := by
  induction a with
  | nil => intro pre; simp [filterWithIndex, keepFirstByUri]
  | cons v rest ih =>
    intro pre
    have hrw : pre ++ v :: rest = (pre ++ [v]) ++ rest := by simp
    have hlen : pre.length + 1 = (pre ++ [v]).length := by simp
    have hrec : filterWithIndex
        (fun v' i => (pre ++ v :: rest).findIdx (fun t => t.uri == v'.uri) == i)
        rest (pre.length + 1)
        = keepFirstByUri (rest.filter (uriFresh (pre ++ [v]))) := by
      rw [hrw, hlen]
      exact ih (pre ++ [v])
    have hfiltereq : rest.filter (uriFresh (pre ++ [v]))
        = (rest.filter (uriFresh pre)).filter (fun t => !(t.uri == v.uri)) := by
      rw [List.filter_filter]
      apply List.filter_congr
      intro t _
      rw [uriFreshAppendSingleton, Bool.and_comm]
    cases hv : uriFresh pre v with
    | true =>
      have hcond : (pre ++ v :: rest).findIdx (fun t => t.uri == v.uri) = pre.length := by
        apply findIdxAppendSelf
        intro s hs
        cases hsv : (s.uri == v.uri) with
        | false => rfl
        | true =>
          have : pre.any (fun s => s.uri == v.uri) = true :=
            List.any_eq_true.mpr ⟨s, hs, hsv⟩
          simp [uriFresh, this] at hv
      rw [filterWithIndex, if_pos (by simp [hcond]), hrec, hfiltereq]
      rw [List.filter_cons_of_pos hv, keepFirstByUri]
    | false =>
      have hany : pre.any (fun s => s.uri == v.uri) = true := by
        have := hv
        simp only [uriFresh, Bool.not_eq_false'] at this
        exact this
      have hlt := findIdxAppendLt v pre (v :: rest) hany
      have hcond : ((pre ++ v :: rest).findIdx (fun t => t.uri == v.uri) == pre.length)
          = false := by
        simp [Nat.ne_of_lt hlt]
      rw [filterWithIndex, if_neg (by simp [hcond]), hrec]
      rw [List.filter_cons_of_neg (by simp [hv])]
      congr 1
      rw [hfiltereq]
      apply List.filter_eq_self.mpr
      intro t ht
      have hfresh : uriFresh pre t = true := List.of_mem_filter ht
      cases htv : (t.uri == v.uri) with
      | false => rfl
      | true =>
        have htv' : t.uri = v.uri := by simpa [beq_iff_eq] using htv
        have : pre.any (fun s => s.uri == t.uri) = true := by
          rw [htv']; exact hany
        simp [uriFresh, this] at hfresh

theorem dedupByUriEqKeepFirst (a : List Source) : dedupByUri a = keepFirstByUri a := by
  have h := filterWithIndexEqKeepFirst a []
  simp only [List.nil_append, List.length_nil] at h
  rw [dedupByUri, h]
  congr 1
  apply List.filter_eq_self.mpr
  intro t _
  simp [uriFresh]

theorem keepFirstSublist : ∀ l : List Source, List.Sublist (keepFirstByUri l) l
  | [] => by simp [keepFirstByUri]
  | v :: rest => by
    rw [keepFirstByUri]
    exact List.Sublist.cons₂ v
      ((keepFirstSublist (rest.filter _)).trans (List.filter_sublist rest))
termination_by l => l.length
decreasing_by
  simp only [List.length_cons]
  exact Nat.lt_succ_of_le (List.length_filter_le _ _)

theorem keepFirstUriNodup : ∀ l : List Source, ((keepFirstByUri l).map Source.uri).Nodup
  | [] => by simp [keepFirstByUri]
  | v :: rest => by
    rw [keepFirstByUri]
    simp only [List.map_cons, List.nodup_cons]
    refine ⟨?_, keepFirstUriNodup (rest.filter _)⟩
    intro hmem
    rcases List.mem_map.mp hmem with ⟨s, hs, hsu⟩
    have hs' : s ∈ rest.filter (fun t => !(t.uri == v.uri)) :=
      (keepFirstSublist _).subset hs
    have hflt := List.of_mem_filter hs'
    simp [hsu] at hflt
termination_by l => l.length
decreasing_by
  all_goals simp only [List.length_cons]
  all_goals exact Nat.lt_succ_of_le (List.length_filter_le _ _)

theorem findFilterOfImp (p q : Source → Bool) (h : ∀ t, p t = true → q t = true) :
    ∀ l : List Source, (l.filter q).find? p = l.find? p
  | [] => rfl
  | a :: l => by
    cases hp : p a with
    | true =>
      have hq := h a hp
      rw [List.filter_cons_of_pos hq, List.find?_cons_of_pos _ hp, List.find?_cons_of_pos _ hp]
    | false =>
      cases hq : q a with
      | true =>
        rw [List.filter_cons_of_pos hq, List.find?_cons_of_neg _ (by simp [hp]),
          List.find?_cons_of_neg _ (by simp [hp])]
        exact findFilterOfImp p q h l
      | false =>
        rw [List.filter_cons_of_neg (by simp [hq]), List.find?_cons_of_neg _ (by simp [hp])]
        exact findFilterOfImp p q h l

theorem keepFirstFindFirst : ∀ (l : List Source) (s : Source), s ∈ keepFirstByUri l →
    l.find? (fun t => t.uri == s.uri) = some s
  | [], s => by simp [keepFirstByUri]
  | v :: rest, s => by
    rw [keepFirstByUri]
    intro hmem
    rcases List.mem_cons.mp hmem with h | h
    · subst h
      rw [List.find?_cons_of_pos _ (by simp)]
    · have hs : s ∈ rest.filter (fun t => !(t.uri == v.uri)) :=
        (keepFirstSublist _).subset h
      have hneq : (s.uri == v.uri) = false := by
        have hflt := List.of_mem_filter hs
        cases hsv : (s.uri == v.uri) with
        | false => rfl
        | true => simp [hsv] at hflt
      have hvneq : ((fun t => t.uri == s.uri) v) = false := by
        show (v.uri == s.uri) = false
        rw [beqStrComm]
        exact hneq
      rw [List.find?_cons_of_neg _ (by simp [hvneq])]
      rw [← findFilterOfImp (fun t => t.uri == s.uri) (fun t => !(t.uri == v.uri)) ?_ rest]
      · exact keepFirstFindFirst _ s h
      · intro t hpt
        have hts : t.uri = s.uri := by simpa [beq_iff_eq] using hpt
        show (!(t.uri == v.uri)) = true
        rw [hts]
        simp [hneq]
termination_by l => l.length
decreasing_by
  all_goals simp only [List.length_cons]
  all_goals exact Nat.lt_succ_of_le (List.length_filter_le _ _)

theorem keepFirstFilterUri (q : String → Bool) : ∀ l : List Source,
    (keepFirstByUri l).filter (fun t => q t.uri) = keepFirstByUri (l.filter (fun t => q t.uri))
  | [] => by simp [keepFirstByUri]
  | v :: rest => by
    rw [keepFirstByUri]
    cases hq : q v.uri with
    | true =>
      have h1 : List.filter (fun t => q t.uri)
          (v :: keepFirstByUri (rest.filter (fun t => !(t.uri == v.uri))))
          = v :: List.filter (fun t => q t.uri)
              (keepFirstByUri (rest.filter (fun t => !(t.uri == v.uri)))) :=
        List.filter_cons_of_pos (by simpa using hq)
      have h2 : List.filter (fun t => q t.uri) (v :: rest)
          = v :: List.filter (fun t => q t.uri) rest :=
        List.filter_cons_of_pos (by simpa using hq)
      rw [h1, h2, keepFirstByUri,
        keepFirstFilterUri q (rest.filter (fun t => !(t.uri == v.uri)))]
      congr 1
      rw [List.filter_filter, List.filter_filter]
      congr 1
      exact List.filter_congr (fun t _ => Bool.and_comm _ _)
    | false =>
      have h1 : List.filter (fun t => q t.uri)
          (v :: keepFirstByUri (rest.filter (fun t => !(t.uri == v.uri))))
          = List.filter (fun t => q t.uri)
              (keepFirstByUri (rest.filter (fun t => !(t.uri == v.uri)))) :=
        List.filter_cons_of_neg (by simp [hq])
      have h2 : List.filter (fun t => q t.uri) (v :: rest)
          = List.filter (fun t => q t.uri) rest :=
        List.filter_cons_of_neg (by simp [hq])
      rw [h1, h2, keepFirstFilterUri q (rest.filter (fun t => !(t.uri == v.uri)))]
      congr 1
      rw [List.filter_filter]
      apply List.filter_congr
      intro t _
      cases hqt : q t.uri with
      | false => simp [hqt]
      | true =>
        cases htv : (t.uri == v.uri) with
        | false => simp [hqt, htv]
        | true =>
          have ht : t.uri = v.uri := by simpa [beq_iff_eq] using htv
          rw [ht, hq] at hqt
          exact absurd hqt (by simp)
termination_by l => l.length
decreasing_by
  all_goals simp only [List.length_cons]
  all_goals exact Nat.lt_succ_of_le (List.length_filter_le _ _)

theorem keepFirstAppendDedup : ∀ xs ys : List Source,
    keepFirstByUri (keepFirstByUri xs ++ ys) = keepFirstByUri (xs ++ ys)
  | [], ys => by simp [keepFirstByUri]
  | v :: xs, ys => by
    rw [keepFirstByUri, List.cons_append, keepFirstByUri, List.cons_append, keepFirstByUri]
    congr 1
    rw [List.filter_append]
    have hself : (keepFirstByUri (xs.filter (fun t => !(t.uri == v.uri)))).filter
        (fun t => !(t.uri == v.uri))
        = keepFirstByUri (xs.filter (fun t => !(t.uri == v.uri))) := by
      have hcomm := keepFirstFilterUri (fun u => !(u == v.uri))
        (xs.filter (fun t => !(t.uri == v.uri)))
      rw [hcomm, List.filter_filter]
      congr 1
      exact List.filter_congr (fun t _ => Bool.and_self _)
    rw [hself, keepFirstAppendDedup (xs.filter (fun t => !(t.uri == v.uri)))
      (ys.filter (fun t => !(t.uri == v.uri))), ← List.filter_append]
termination_by xs ys => xs.length
decreasing_by
  simp only [List.length_cons]
  exact Nat.lt_succ_of_le (List.length_filter_le _ _)

theorem keepFirstEqSelfOfNodup : ∀ l : List Source,
    ((l.map Source.uri).Nodup) → keepFirstByUri l = l
  | [], _ => by simp [keepFirstByUri]
  | v :: rest, h => by
    simp only [List.map_cons, List.nodup_cons] at h
    rw [keepFirstByUri]
    have hf : rest.filter (fun t => !(t.uri == v.uri)) = rest := by
      apply List.filter_eq_self.mpr
      intro t ht
      cases htv : (t.uri == v.uri) with
      | false => rfl
      | true =>
        have he : t.uri = v.uri := by simpa [beq_iff_eq] using htv
        exact absurd (List.mem_map.mpr ⟨t, ht, he⟩) h.1
    rw [hf, keepFirstEqSelfOfNodup rest h.2]
termination_by l => l.length
decreasing_by
  simp only [List.length_cons]
  exact Nat.lt_succ_of_le (Nat.le_refl _)

/-- Re-filtering after an already filtered prefix equals filtering the plain
concatenation once: the key algebraic fact behind incremental citation merging. -/
theorem dedupByUriAppendDedup (xs ys : List Source) :
    dedupByUri (dedupByUri xs ++ ys) = dedupByUri (xs ++ ys) := by
  simp only [dedupByUriEqKeepFirst]
  exact keepFirstAppendDedup xs ys

/-! Aggregation lemmas. -/

theorem foldMessageSourcesProj (frags : List Fragment) : ∀ m : Message,
    (List.foldl foldMessage m frags).sources
      = List.foldl (fun s f => dedupByUri (s ++ f.sources)) m.sources frags := by
  induction frags with
  | nil => intro m; rfl
  | cons f r ih =>
    intro m
    rw [List.foldl_cons, List.foldl_cons, ih]
    rfl

theorem foldMessageTextProj (frags : List Fragment) : ∀ m : Message,
    (List.foldl foldMessage m frags).text = m.text ++ concatTexts frags := by
  induction frags with
  | nil =>
    intro m
    rw [concatTexts]
    exact (String.append_empty m.text).symm
  | cons f r ih =>
    intro m
    rw [List.foldl_cons, ih, concatTexts]
    show m.text ++ f.text ++ concatTexts r = m.text ++ (f.text ++ concatTexts r)
    exact String.append_assoc _ _ _

theorem foldlDedupSources : ∀ (frags : List Fragment) (s : List Source),
    List.foldl (fun acc f => dedupByUri (acc ++ f.sources)) (dedupByUri s) frags
      = dedupByUri (s ++ (frags.map Fragment.sources).flatten)
  | [], s => by
    rw [List.foldl_nil, List.map_nil, List.flatten_nil, List.append_nil]
  | f :: r, s => by
    rw [List.foldl_cons]
    show List.foldl (fun acc f => dedupByUri (acc ++ f.sources))
        (dedupByUri (dedupByUri s ++ f.sources)) r = _
    rw [dedupByUriAppendDedup, foldlDedupSources r (s ++ f.sources), List.map_cons,
      List.flatten_cons, List.append_assoc]

theorem foldMessageSourcesClosed (id : String) (frags : List Fragment) :
    (List.foldl foldMessage (botMessage id) frags).sources
      = dedupByUri ((frags.map Fragment.sources).flatten) := by
  rw [foldMessageSourcesProj]
  have h0 : ([] : List Source) = dedupByUri [] := rfl
  show List.foldl (fun s f => dedupByUri (s ++ f.sources)) ([] : List Source) frags = _
  rw [h0, foldlDedupSources frags [], List.nil_append]

/-! Claim theorems. -/

/-- C1, counterexample: in the fold of unnamed/part_002 handleSend (one of the
cited merge sites), two fragments carrying citations with the same uri "a" leave
both entries in the final citation list, so the final citation set does not
contain each uri exactly once. -/
theorem c1_counterexample :
    ((List.foldl foldMessagePart002 (botMessage "b")
        [⟨"x", [⟨"a", "A"⟩]⟩, ⟨"y", [⟨"a", "A2"⟩]⟩]).sources.map Source.uri)
      = ["a", "a"]
    ∧ ¬ (((List.foldl foldMessagePart002 (botMessage "b")
        [⟨"x", [⟨"a", "A"⟩]⟩, ⟨"y", [⟨"a", "A2"⟩]⟩]).sources.map Source.uri).Nodup) := by
  exact ⟨rfl, by decide⟩

/-- C1 (amended to the filter-based folds of App-1.tsx handleSubmit and
unnamed/part_001 handleSend): folding any ordered fragment sequence into a fresh
bot message yields a citation list equal to the first-occurrence filter of the
concatenated citations, its uris are pairwise distinct, and every retained entry
is the first entry carrying its uri in arrival order (first title wins). -/
theorem c1_claim (id : String) (frags : List Fragment) :
    (List.foldl foldMessage (botMessage id) frags).sources
        = dedupByUri ((frags.map Fragment.sources).flatten)
    ∧ (((List.foldl foldMessage (botMessage id) frags).sources).map Source.uri).Nodup
    ∧ ∀ s ∈ (List.foldl foldMessage (botMessage id) frags).sources,
        ((frags.map Fragment.sources).flatten).find? (fun t => t.uri == s.uri) = some s := by
  refine ⟨foldMessageSourcesClosed id frags, ?_, ?_⟩
  · rw [foldMessageSourcesClosed, dedupByUriEqKeepFirst]
    exact keepFirstUriNodup _
  · intro s hs
    rw [foldMessageSourcesClosed, dedupByUriEqKeepFirst] at hs
    exact keepFirstFindFirst _ s hs

/-- C1 witness: the amended theorem applied to the two-fragment duplicate-uri
stream of the scenario in the specification, at the retained first entry. -/
theorem c1_witness :
    ((([⟨"x", [⟨"a", "A"⟩]⟩, ⟨"y", [⟨"a", "A2"⟩]⟩] : List Fragment).map
        Fragment.sources).flatten).find? (fun t => t.uri == "a") = some ⟨"a", "A"⟩ :=
  (c1_claim "b" [⟨"x", [⟨"a", "A"⟩]⟩, ⟨"y", [⟨"a", "A2"⟩]⟩]).2.2 ⟨"a", "A"⟩ (by decide)

/-- C2: folding any fragment sequence in order into a fresh (empty) bot message
accumulates exactly the concatenation of the text deltas in order; the fold is a
simple append with no normalization. -/
theorem c2_claim (id : String) (frags : List Fragment) :
    (List.foldl foldMessage (botMessage id) frags).text = concatTexts frags := by
  rw [foldMessageTextProj]
  exact String.empty_append _

/-- C7: folding the empty fragment (empty text delta, no citations) is a no-op,
both for the filter-based fold of App-1.tsx (on any accumulated message
satisfying the data-model invariant that its citation uris are pairwise
distinct, which every reachable accumulated result satisfies) and for the
Set-based fold of unnamed/part_002 (unconditionally). -/
theorem c7_claim (m : Message) (h : (m.sources.map Source.uri).Nodup) :
    foldMessage m emptyFragment = m ∧ foldMessagePart002 m emptyFragment = m := by
  constructor
  · show { m with text := m.text ++ "", sources := dedupByUri (m.sources ++ []) } = m
    rw [String.append_empty, List.append_nil, dedupByUriEqKeepFirst,
      keepFirstEqSelfOfNodup m.sources h]
  · show { m with text := m.text ++ "", sources := m.sources ++ [] } = m
    rw [String.append_empty, List.append_nil]

/-- C7 witness: the no-op fold at a concrete accumulated message with one citation. -/
theorem c7_witness :
    foldMessage ⟨"1", "bot", "t", [⟨"a", "A"⟩]⟩ emptyFragment = ⟨"1", "bot", "t", [⟨"a", "A"⟩]⟩
    ∧ foldMessagePart002 ⟨"1", "bot", "t", [⟨"a", "A"⟩]⟩ emptyFragment
        = ⟨"1", "bot", "t", [⟨"a", "A"⟩]⟩ :=
  c7_claim ⟨"1", "bot", "t", [⟨"a", "A"⟩]⟩ (by decide)

/-- C9: incremental merging equals batch de-duplication: folding fragments one at
a time, re-filtering the accumulated citation list after each fold, produces the
same citation list as concatenating all fragment citations in arrival order and
applying the keep-first-occurrence-per-uri filter once at the end. -/
theorem c9_claim (id : String) (frags : List Fragment) :
    (List.foldl foldMessage (botMessage id) frags).sources
      = dedupByUri ((frags.map Fragment.sources).flatten) :=
  foldMessageSourcesClosed id frags

/-- C3: when the provider interaction raises during streaming, every cited
streamResponse variant yields the fragments for the chunks delivered so far
followed by exactly one final fragment whose citation list is empty and whose
text is the human-readable error message of that variant, and the stream then
ends; the embedding is a total function into fragment lists, reflecting that the
generator catches the error and never raises it to the caller. -/
theorem c3_claim (hostname : String → String) (delivered : List ProviderChunk) (e : JsError) :
    streamResponseV1 hostname ⟨delivered, some e⟩
        = delivered.map (chunkToFragment hostname) ++ [errorFragmentV1 e]
    ∧ (errorFragmentV1 e).sources = []
    ∧ (errorFragmentV1 e).text
        = "Error: " ++ detailedErrorV1 e ++ ". Please check your connection."
    ∧ (streamResponseV1 hostname ⟨delivered, some e⟩).length = delivered.length + 1
    ∧ streamResponseP000 ⟨delivered, some e⟩
        = delivered.map chunkToFragmentP000 ++ [errorFragmentP000 e]
    ∧ (errorFragmentP000 e).sources = []
    ∧ streamResponseServices hostname ⟨delivered, some e⟩
        = delivered.map (chunkToFragmentServices hostname) ++ [errorFragmentServices e]
    ∧ (errorFragmentServices e).sources = [] := by
  refine ⟨rfl, rfl, rfl, ?_, rfl, rfl, rfl, rfl⟩
  rw [streamResponseV1]
  simp

/-- C4, counterexample: getAi of services/geminiService.ts performs no key
check, so with the key absent the streaming call still opens the provider stream
(one provider call is made) and yields the delivered content instead of failing
with a configuration error before any network call. -/
theorem c4_counterexample :
    ((streamCompletionServices none ⟨none, 0⟩ (fun _ => "h")
        ⟨[⟨some "hi", none⟩], none⟩).1).providerCalls = 1
    ∧ ((streamCompletionServices none ⟨none, 0⟩ (fun _ => "h")
        ⟨[⟨some "hi", none⟩], none⟩).1).result = CallResult.ok [⟨some "hi", []⟩] :=
  ⟨rfl, rfl⟩

/-- C4 (amended to the variants that validate the key, the second geminiService.ts
definition and unnamed/part_000): with a falsy key, the streaming and structured
entries raise the configuration error immediately and make zero provider calls. -/
theorem c4_claim (apiKey : Option String) (s : ClientState)
    (hostname : String → String) (ps : ProviderStream)
    (parse : String → Except String TranslatorResponse) (resp : Except JsError String)
    (h : jsFalsyStr apiKey = true) :
    (streamCompletionV2 apiKey s hostname ps).1.providerCalls = 0
    ∧ (streamCompletionV2 apiKey s hostname ps).1.result
        = CallResult.raised "API Key is missing. Ensure it is set in your environment variables."
    ∧ (getTranslatorResponseV2 apiKey s parse resp).1.providerCalls = 0
    ∧ (getTranslatorResponseV2 apiKey s parse resp).1.result
        = CallResult.raised "API Key is missing. Ensure it is set in your environment variables."
    ∧ (streamCompletionP000 apiKey ps).providerCalls = 0
    ∧ (streamCompletionP000 apiKey ps).result = CallResult.raised "API Key missing"
    ∧ (getTranslationP000 apiKey parse resp).providerCalls = 0
    ∧ (getTranslationP000 apiKey parse resp).result = CallResult.raised "API Key missing" := by
  have hv2 : getAiV2 apiKey s
      = .error "API Key is missing. Ensure it is set in your environment variables." := by
    rw [getAiV2, if_pos h]
  refine ⟨?_, ?_, ?_, ?_, ?_, ?_, ?_, ?_⟩ <;>
    simp [streamCompletionV2, getTranslatorResponseV2, streamCompletionP000,
      getTranslationP000, hv2, h]

/-- C4 witness: the amended theorem at an absent key and an idle provider. -/
theorem c4_witness :
    (streamCompletionP000 none ⟨[], none⟩).providerCalls = 0 :=
  (c4_claim none ⟨none, 0⟩ (fun _ => "h") ⟨[], none⟩ (fun _ => Except.error "e")
    (Except.ok "") (by decide)).2.2.2.2.1

/-- C5, counterexample: in getTranslatorResponse of geminiService.ts (first
definition, the cited lines 137-152), two different parse failure details at the
same invalid response body produce the identical fixed generic error, so the
raised error does not carry the original parse failure detail. -/
theorem c5_counterexample :
    (getTranslatorResponseV1 (fun _ => Except.error "Unexpected token x in JSON")
        (Except.ok "not json")).result = CallResult.raised "Failed to process translation."
    ∧ (getTranslatorResponseV1 (fun _ => Except.error "Unexpected end of JSON input")
        (Except.ok "not json")).result = CallResult.raised "Failed to process translation." :=
  ⟨rfl, rfl⟩

/-- C5 (amended): a structured response that fails to parse makes the call fail
with an explicit error and exactly one provider call (no retry) in each variant;
the original parse detail is carried only by services/geminiService.ts, while
geminiService.ts raises a fixed generic message and unnamed/part_000 propagates
the raw parse error. -/
theorem c5_claim (parse : String → Except String TranslatorResponse) (t d : String)
    (h : parse (jsTrim t) = Except.error d) :
    (getTranslatorResponseServices parse (Except.ok t)).result
        = CallResult.raised ("Failed to get translation: " ++ d)
    ∧ (getTranslatorResponseServices parse (Except.ok t)).providerCalls = 1
    ∧ (getTranslatorResponseV1 parse (Except.ok t)).result
        = CallResult.raised "Failed to process translation."
    ∧ (getTranslatorResponseV1 parse (Except.ok t)).providerCalls = 1
    ∧ (getTranslationP000 (some "k") parse (Except.ok t)).result = CallResult.raised d
    ∧ (getTranslationP000 (some "k") parse (Except.ok t)).providerCalls = 1 := by
  refine ⟨?_, ?_, ?_, ?_, ?_, ?_⟩ <;>
    simp [getTranslatorResponseServices, getTranslatorResponseV1, getTranslationP000,
      jsFalsyStr, h]

/-- C5 witness: the amended theorem at a concrete failing parse. -/
theorem c5_witness :
    (getTranslatorResponseServices (fun _ => Except.error "boom") (Except.ok "x")).result
        = CallResult.raised ("Failed to get translation: " ++ "boom") :=
  (c5_claim (fun _ => Except.error "boom") "x" "boom" rfl).1

/-- C6, counterexample: services/geminiService.ts line 24 reads const text =
chunk.text with no default, so a chunk with absent text yields a fragment whose
text is absent, contradicting that the yielded text is never absent. -/
theorem c6_counterexample :
    (chunkToFragmentServices (fun _ => "h") ⟨none, none⟩).text = none := rfl

/-- C6 (amended to geminiService.ts and unnamed/part_000): the fragment yielded
for the i-th delivered chunk is the per-chunk construction on that chunk, and
its text equals the chunk text delta when present and the empty string when the
chunk text is absent; in these variants the fragment text is a total string. -/
theorem c6_claim (hostname : String → String) (delivered : List ProviderChunk)
    (err : Option JsError) (i : Nat) (c : ProviderChunk) (h : delivered[i]? = some c) :
    (streamResponseV1 hostname ⟨delivered, err⟩)[i]? = some (chunkToFragment hostname c)
    ∧ (streamResponseP000 ⟨delivered, err⟩)[i]? = some (chunkToFragmentP000 c)
    ∧ (chunkToFragment hostname c).text = (match c.text with | some s => s | none => "")
    ∧ (chunkToFragmentP000 c).text = (match c.text with | some s => s | none => "") := by
  have hi : i < delivered.length := by
    by_contra hge
    rw [List.getElem?_eq_none (Nat.le_of_not_lt hge)] at h
    exact Option.noConfusion h
  have htext : jsOrString c.text "" = (match c.text with | some s => s | none => "") := by
    cases hc : c.text with
    | none => rfl
    | some s =>
      show (if s = "" then "" else s) = s
      by_cases hs : s = ""
      · rw [if_pos hs, hs]
      · rw [if_neg hs]
  refine ⟨?_, ?_, htext, htext⟩
  · rw [streamResponseV1, List.getElem?_append_left (by simpa using hi),
      List.getElem?_map, h]
    rfl
  · rw [streamResponseP000, List.getElem?_append_left (by simpa using hi),
      List.getElem?_map, h]
    rfl

/-- C6 witness: the amended theorem at a one-chunk stream whose chunk has absent
text; the yielded fragment text is the empty string. -/
theorem c6_witness :
    (streamResponseV1 (fun _ => "h") ⟨[⟨none, none⟩], none⟩)[0]?
        = some (chunkToFragment (fun _ => "h") ⟨none, none⟩)
    ∧ (streamResponseP000 ⟨[⟨none, none⟩], none⟩)[0]? = some (chunkToFragmentP000 ⟨none, none⟩)
    ∧ (chunkToFragment (fun _ => "h") ⟨none, none⟩).text
        = (match (⟨none, none⟩ : ProviderChunk).text with | some s => s | none => "")
    ∧ (chunkToFragmentP000 ⟨none, none⟩).text
        = (match (⟨none, none⟩ : ProviderChunk).text with | some s => s | none => "") :=
  c6_claim (fun _ => "h") [⟨none, none⟩] none 0 ⟨none, none⟩ rfl

/-- C8, counterexample: getAi of unnamed/part_000 (cited lines 6-10) constructs
a fresh client on every call; two successive calls with the key present return
different handles, so the handle is not a construct-once, reused singleton. -/
theorem c8_counterexample :
    getAiP000 (some "k") 0 = Except.ok (0, 1)
    ∧ getAiP000 (some "k") 1 = Except.ok (1, 2)
    ∧ (0 : Handle) ≠ (1 : Handle) :=
  ⟨rfl, rfl, by decide⟩

/-- C8 (amended to the caching variants geminiService.ts and
services/geminiService.ts): the handle is lazily constructed on first use (from
the uninitialized state, one construction happens and is cached), every call
leaves the returned handle cached in the resulting state, and a further call
from that state returns the same handle with the state unchanged, so the handle
is never torn down or re-created between requests. -/
theorem c8_claim (s s' : ClientState) (h : Handle) (hc : getAiCached s = (h, s')) :
    getAiCached s' = (h, s')
    ∧ s'.aiInstance = some h
    ∧ getAiCached ⟨none, 0⟩ = (0, ⟨some 0, 1⟩) := by
  cases s with
  | mk ai ctor =>
    cases ai with
    | some h0 =>
      have hc' : ((h0, ClientState.mk (some h0) ctor) : Handle × ClientState) = (h, s') := hc
      injection hc' with hh hs
      subst hh
      subst hs
      exact ⟨rfl, rfl, rfl⟩
    | none =>
      have hc' : ((ctor, ClientState.mk (some ctor) (ctor + 1)) : Handle × ClientState)
          = (h, s') := hc
      injection hc' with hh hs
      subst hh
      subst hs
      exact ⟨rfl, rfl, rfl⟩

/-- C8 witness: the amended theorem after a first call from the uninitialized
state with five prior constructions. -/
theorem c8_witness :
    getAiCached ⟨some 5, 6⟩ = (5, ⟨some 5, 6⟩)
    ∧ (ClientState.mk (some 5) 6).aiInstance = some 5
    ∧ getAiCached ⟨none, 0⟩ = (0, ⟨some 0, 1⟩) :=
  c8_claim ⟨none, 5⟩ ⟨some 5, 6⟩ 5 rfl

/-! Trim lemmas for C10. -/

theorem dropWhileAllAppend (p : Char → Bool) : ∀ (w l : List Char),
    (∀ c ∈ w, p c = true) → (w ++ l).dropWhile p = l.dropWhile p
  | [], _, _ => rfl
  | a :: w, l, h => by
    rw [List.cons_append, List.dropWhile_cons, if_pos (h a (by simp))]
    exact dropWhileAllAppend p w l (fun c hc => h c (by simp [hc]))

theorem dropWhileAllNil (p : Char → Bool) (w : List Char) (h : ∀ c ∈ w, p c = true) :
    w.dropWhile p = [] := by
  have hw := dropWhileAllAppend p w [] h
  simpa using hw

theorem dropWhileLengthLe (p : Char → Bool) : ∀ l : List Char,
    (l.dropWhile p).length ≤ l.length
  | [] => Nat.le_refl _
  | a :: l => by
    rw [List.dropWhile_cons]
    by_cases hp : p a = true
    · rw [if_pos hp]
      exact Nat.le_succ_of_le (dropWhileLengthLe p l)
    · rw [if_neg hp]

theorem dropWhileEqSelfOfLength (p : Char → Bool) : ∀ l : List Char,
    (l.dropWhile p).length = l.length → l.dropWhile p = l
  | [], _ => rfl
  | a :: l, h => by
    rw [List.dropWhile_cons] at h ⊢
    by_cases hp : p a = true
    · rw [if_pos hp] at h
      have hle := dropWhileLengthLe p l
      rw [h, List.length_cons] at hle
      exact absurd hle (Nat.not_succ_le_self _)
    · rw [if_neg hp]

theorem jsTrimFixParts (j : String) (hj : jsTrim j = j) :
    j.data.dropWhile isJsWhitespace = j.data
    ∧ j.data.reverse.dropWhile isJsWhitespace = j.data.reverse := by
  have hdata : ((j.data.dropWhile isJsWhitespace).reverse.dropWhile isJsWhitespace).reverse
      = j.data := congrArg String.data hj
  have hylen : ((j.data.dropWhile isJsWhitespace).reverse.dropWhile isJsWhitespace).length
      = j.data.length := by
    rw [← List.length_reverse
      ((j.data.dropWhile isJsWhitespace).reverse.dropWhile isJsWhitespace), hdata]
  have hxlen : (j.data.dropWhile isJsWhitespace).length = j.data.length := by
    have hle : ((j.data.dropWhile isJsWhitespace).reverse.dropWhile isJsWhitespace).length
        ≤ (j.data.dropWhile isJsWhitespace).reverse.length := dropWhileLengthLe _ _
    rw [hylen, List.length_reverse] at hle
    exact Nat.le_antisymm (dropWhileLengthLe _ _) hle
  have hx : j.data.dropWhile isJsWhitespace = j.data := dropWhileEqSelfOfLength _ _ hxlen
  refine ⟨hx, ?_⟩
  have hy : (j.data.dropWhile isJsWhitespace).reverse.dropWhile isJsWhitespace
      = (j.data.dropWhile isJsWhitespace).reverse := by
    apply dropWhileEqSelfOfLength
    rw [hylen, List.length_reverse, hxlen]
  rw [hx] at hy
  exact hy

theorem stringExtOfData (a b : String) (hab : a.data = b.data) : a = b := by
  cases a
  cases b
  exact congrArg String.mk hab

theorem jsTrimSandwich (w1 j w2 : String)
    (h1 : ∀ c ∈ w1.data, isJsWhitespace c = true)
    (h2 : ∀ c ∈ w2.data, isJsWhitespace c = true)
    (hj : jsTrim j = j) :
    jsTrim (w1 ++ j ++ w2) = j := by
  obtain ⟨hx, hy⟩ := jsTrimFixParts j hj
  apply stringExtOfData
  show (((w1 ++ j ++ w2).data.dropWhile isJsWhitespace).reverse.dropWhile
      isJsWhitespace).reverse = j.data
  have hdata : (w1 ++ j ++ w2).data = w1.data ++ (j.data ++ w2.data) := by
    rw [String.data_append, String.data_append, List.append_assoc]
  rw [hdata, dropWhileAllAppend _ _ _ h1]
  cases hjd : j.data with
  | nil =>
    rw [List.nil_append, dropWhileAllNil _ _ h2]
    rfl
  | cons c rest =>
    rw [hjd] at hx hy
    have hpc : ¬ (isJsWhitespace c = true) := by
      intro hp
      have hx' := hx
      rw [List.dropWhile_cons, if_pos hp] at hx'
      have hle := dropWhileLengthLe isJsWhitespace rest
      rw [hx', List.length_cons] at hle
      exact absurd hle (Nat.not_succ_le_self _)
    rw [List.cons_append, List.dropWhile_cons, if_neg hpc]
    rw [List.reverse_cons, List.reverse_append, List.append_assoc]
    rw [dropWhileAllAppend _ _ _ (fun x hxm => h2 x (List.mem_reverse.mp hxm))]
    have hrw : rest.reverse ++ [c] = (c :: rest).reverse := (List.reverse_cons c rest).symm
    rw [hrw, hy, List.reverse_reverse]

/-- C10: the structured translation call trims leading and trailing whitespace
from the provider response text before JSON parsing, so a response consisting of
schema-valid JSON surrounded by whitespace parses successfully and returns the
parsed structured result in all three cited variants. -/
theorem c10_claim (parse : String → Except String TranslatorResponse)
    (w1 j w2 : String) (r : TranslatorResponse)
    (h1 : ∀ c ∈ w1.data, isJsWhitespace c = true)
    (h2 : ∀ c ∈ w2.data, isJsWhitespace c = true)
    (hj : jsTrim j = j) (hp : parse j = Except.ok r) :
    (getTranslatorResponseServices parse (Except.ok (w1 ++ j ++ w2))).result = CallResult.ok r
    ∧ (getTranslatorResponseV1 parse (Except.ok (w1 ++ j ++ w2))).result = CallResult.ok r
    ∧ (getTranslationP000 (some "k") parse (Except.ok (w1 ++ j ++ w2))).result
        = CallResult.ok r := by
  have ht := jsTrimSandwich w1 j w2 h1 h2 hj
  refine ⟨?_, ?_, ?_⟩ <;>
    simp [getTranslatorResponseServices, getTranslatorResponseV1, getTranslationP000,
      jsFalsyStr, ht, hp]

/-- C10 witness: the theorem at a concrete whitespace-surrounded body and a
concrete parse function. -/
theorem c10_witness :
    (getTranslatorResponseServices (fun _ => Except.ok ⟨"t", [], none⟩)
        (Except.ok ("  " ++ "J" ++ " "))).result = CallResult.ok ⟨"t", [], none⟩
    ∧ (getTranslatorResponseV1 (fun _ => Except.ok ⟨"t", [], none⟩)
        (Except.ok ("  " ++ "J" ++ " "))).result = CallResult.ok ⟨"t", [], none⟩
    ∧ (getTranslationP000 (some "k") (fun _ => Except.ok ⟨"t", [], none⟩)
        (Except.ok ("  " ++ "J" ++ " "))).result = CallResult.ok ⟨"t", [], none⟩ :=
  c10_claim (fun _ => Except.ok ⟨"t", [], none⟩) "  " "J" " " ⟨"t", [], none⟩
    (by decide) (by decide) (by decide) rfl

end Signify
